import Mathlib

/-
Verification of the goat-scraper live progress-synchronization subsystem.

The client-side code is shallowly embedded:
* JavaScript objects used as string-keyed maps become association lists
  (`objGet` models property access, `objSet` models the spread-update
  idiom used throughout the progress provider).
* The progress provider (progress-provider.tsx) becomes pure functions on
  `ProgressData`; the call to the global WebSocket dispatch is modelled by
  returning the argument pair it would pass.
* The sync-channel hook (useProgressSync) becomes a state machine on
  `ChannelState`; `ws.send` calls are modelled by appending to a `sent`
  trace, and the values that the connect closure captures for its socket
  handlers are recorded in a `SocketHandlers` value.
* JS numbers holding small integers are modelled as Nat/Int with exact
  arithmetic; Math.round on nonnegative input is floor(x + 1/2).
-/

/- Association-list model of a JS object used as a string-keyed map. -/

def objGet {β : Type} (l : List (String × β)) (k : String) : Option β :=
  match l with
  | [] => none
  | (k0, v) :: t => if k0 = k then some v else objGet t k

def objSet {β : Type} (l : List (String × β)) (k : String) (v : β) : List (String × β) :=
  match l with
  | [] => [(k, v)]
  | (k0, v0) :: t => if k0 = k then (k, v) :: t else (k0, v0) :: objSet t k v

theorem objGet_objSet_self {β : Type} (l : List (String × β)) (k : String) (v : β) :
    objGet (objSet l k v) k = some v := by
  induction l with
  | nil => simp [objGet, objSet]
  | cons hd t ih =>
      obtain ⟨k0, v0⟩ := hd
      by_cases h : k0 = k
      · simp [objGet, objSet, h]
      · simp [objGet, objSet, h, ih]

theorem objGet_objSet_ne {β : Type} (l : List (String × β)) (k k' : String) (v : β)
    (h : k' ≠ k) : objGet (objSet l k v) k' = objGet l k' := by
  have hne : ¬ (k = k') := by
    intro hh
    exact h hh.symm
  induction l with
  | nil => simp [objGet, objSet, hne]
  | cons hd t ih =>
      obtain ⟨k0, v0⟩ := hd
      by_cases h0 : k0 = k
      · rw [h0]
        simp [objGet, objSet, hne]
      · simp [objGet, objSet, h0, ih]

/- Data model of progress-provider.tsx:
   ProgressData = { [courseId]: { [fileKey]: boolean } }. -/

abbrev CourseProgress := List (String × Bool)

abbrev ProgressData := List (String × CourseProgress)

/- Models `prev[courseId] || {}`. -/
def lookupCourse (p : ProgressData) (courseId : String) : CourseProgress :=
  (objGet p courseId).getD []

/- Models `courseProgress[fileKey]` coerced to a boolean (undefined is falsy). -/
def lookupKey (cp : CourseProgress) (fileKey : String) : Bool :=
  (objGet cp fileKey).getD false

/- The argument pair handed to the global WebSocket dispatch
   (`__sendProgressUpdate(fileKey, isComplete)`). -/
structure ProgressMsg where
  fileKey : String
  isComplete : Bool
deriving DecidableEq

/- progress-provider.tsx lines 68-84. Returns the new state plus the
   message forwarded to the server. -/
def toggleFileComplete (p : ProgressData) (courseId fileKey : String) :
    ProgressData × ProgressMsg :=
  let courseProgress := lookupCourse p courseId
  let isComplete := !(lookupKey courseProgress fileKey)
  (objSet p courseId (objSet courseProgress fileKey isComplete),
   ⟨fileKey, isComplete⟩)

/- progress-provider.tsx lines 86-88: `progress[courseId]?.[fileKey] ?? false`. -/
def isFileComplete (p : ProgressData) (courseId fileKey : String) : Bool :=
  ((objGet p courseId).bind (fun cp => objGet cp fileKey)).getD false

/- progress-provider.tsx lines 90-104. Returns the new state plus the
   messages forwarded to the server, one per key, in order. -/
def toggleUnitComplete (p : ProgressData) (courseId : String) (fileKeys : List String)
    (markComplete : Bool) : ProgressData × List ProgressMsg :=
  let courseProgress := lookupCourse p courseId
  let updatedProgress := fileKeys.foldl (fun acc key => objSet acc key markComplete) courseProgress
  (objSet p courseId updatedProgress,
   fileKeys.map (fun key => ⟨key, markComplete⟩))

structure ProgressResult where
  completed : Nat
  total : Nat
  percentage : Nat
deriving DecidableEq

/- Math.round((completed / totalFiles) * 100) in exact integer arithmetic:
   for nonnegative x, Math.round x = floor (x + 1/2), and
   floor (100*c/t + 1/2) = (200*c + t) / (2*t) in natural division. -/
def jsRound100 (completed total : Nat) : Nat :=
  (200 * completed + total) / (2 * total)

/- progress-provider.tsx lines 113-126 (unitNumber is accepted and unused,
   exactly as in the source). -/
def getUnitProgress (p : ProgressData) (courseId : String) (_unitNumber : Nat)
    (totalFiles : Nat) (fileKeys : List String) : ProgressResult :=
  let courseProgress := lookupCourse p courseId
  let completed := (fileKeys.filter (fun key => lookupKey courseProgress key)).length
  ⟨completed, totalFiles, if 0 < totalFiles then jsRound100 completed totalFiles else 0⟩

/- progress-provider.tsx lines 128-140. -/
def getCourseProgress (p : ProgressData) (courseId : String)
    (totalFiles : Nat) (allFileKeys : List String) : ProgressResult :=
  let courseProgress := lookupCourse p courseId
  let completed := (allFileKeys.filter (fun key => lookupKey courseProgress key)).length
  ⟨completed, totalFiles, if 0 < totalFiles then jsRound100 completed totalFiles else 0⟩

theorem jsRound100_eq_floor (c t : Nat) (ht : 0 < t) :
    jsRound100 c t = ⌊((c : ℚ) / t) * 100 + 1/2⌋₊ := by
  have ht' : (t : ℚ) ≠ 0 := by positivity
  have key : ((c : ℚ) / t) * 100 + 1/2 = ((200 * c + t : ℕ) : ℚ) / ((2 * t : ℕ) : ℚ) := by
    push_cast
    field_simp
    ring
  rw [key, Nat.floor_div_nat, Nat.floor_natCast, jsRound100]

theorem jsRound100_le_100 (c t : Nat) (ht : 0 < t) (h : c ≤ t) : jsRound100 c t ≤ 100 := by
  have h2t : 0 < 2 * t := by omega
  have hlt : (200 * c + t) / (2 * t) < 101 := by
    rw [Nat.div_lt_iff_lt_mul h2t]
    omega
  unfold jsRound100
  omega

/-- Claim C1 (amended): for both getUnitProgress and getCourseProgress with
totalFiles > 0, the returned percentage equals round(completed/totalFiles*100)
(round half up, i.e. floor(x + 1/2)) where completed is the number of supplied
fileKeys marked complete for the course; the percentage lies in [0,100]
provided the number of supplied fileKeys does not exceed totalFiles (which
every call site guarantees by passing totalFiles = fileKeys.length); with
totalFiles = 0 the returned percentage is 0. Without the added bound the
range claim fails, see the counterexample. -/
theorem claim_C1_percentage (p : ProgressData) (courseId : String) (unitNumber : Nat)
    (totalFiles : Nat) (fileKeys : List String)
    (hpos : 0 < totalFiles) (hlen : fileKeys.length ≤ totalFiles) :
    ((getUnitProgress p courseId unitNumber totalFiles fileKeys).completed
        = (fileKeys.filter (fun key => lookupKey (lookupCourse p courseId) key)).length)
    ∧ ((getUnitProgress p courseId unitNumber totalFiles fileKeys).percentage
        = ⌊(((getUnitProgress p courseId unitNumber totalFiles fileKeys).completed : ℚ)
            / totalFiles) * 100 + 1/2⌋₊)
    ∧ (getUnitProgress p courseId unitNumber totalFiles fileKeys).percentage ≤ 100
    ∧ ((getCourseProgress p courseId totalFiles fileKeys).completed
        = (fileKeys.filter (fun key => lookupKey (lookupCourse p courseId) key)).length)
    ∧ ((getCourseProgress p courseId totalFiles fileKeys).percentage
        = ⌊(((getCourseProgress p courseId totalFiles fileKeys).completed : ℚ)
            / totalFiles) * 100 + 1/2⌋₊)
    ∧ (getCourseProgress p courseId totalFiles fileKeys).percentage ≤ 100
    ∧ (getUnitProgress p courseId unitNumber 0 fileKeys).percentage = 0
    ∧ (getCourseProgress p courseId 0 fileKeys).percentage = 0 := by
  have hcomp : (fileKeys.filter (fun key => lookupKey (lookupCourse p courseId) key)).length
      ≤ totalFiles := le_trans (List.length_filter_le _ _) hlen
  refine ⟨rfl, ?_, ?_, rfl, ?_, ?_, ?_, ?_⟩
  · simp only [getUnitProgress, if_pos hpos]
    exact jsRound100_eq_floor _ _ hpos
  · simp only [getUnitProgress, if_pos hpos]
    exact jsRound100_le_100 _ _ hpos hcomp
  · simp only [getCourseProgress, if_pos hpos]
    exact jsRound100_eq_floor _ _ hpos
  · simp only [getCourseProgress, if_pos hpos]
    exact jsRound100_le_100 _ _ hpos hcomp
  · simp [getUnitProgress]
  · simp [getCourseProgress]

/-- Witness for claim C1: concrete instantiation with one of two keys complete,
totalFiles = 2, giving the hypotheses by computation. -/
theorem claim_C1_percentage_witness :
    (0 < 2 ∧ ((["a", "b"] : List String)).length ≤ 2)
    ∧ (getCourseProgress [("c", [("a", true)])] "c" 2 ["a", "b"]).percentage ≤ 100 :=
  ⟨by decide,
   (claim_C1_percentage [("c", [("a", true)])] "c" 1 2 ["a", "b"]
      (by decide) (by decide)).2.2.2.2.2.1⟩

/- A concrete progress state used for the counterexample: course "c" with
   both supplied keys marked complete. -/
def demoProgress : ProgressData := [("c", [("a", true), ("b", true)])]

/-- Counterexample to claim C1 as stated: with totalFiles = 1 and two supplied
fileKeys both complete, the computation runs with completed = 2 and returns
percentage = round(2/1*100) = 200, which does not lie in [0,100]. The code
never clamps the percentage. -/
theorem claim_C1_counterexample :
    (getCourseProgress demoProgress "c" 1 ["a", "b"]).percentage = 200
    ∧ ¬ (getCourseProgress demoProgress "c" 1 ["a", "b"]).percentage ≤ 100
    ∧ (getUnitProgress demoProgress "c" 1 1 ["a", "b"]).percentage = 200 := by
  decide

/- Bridge: the optional-chaining read equals the two-stage defaulted read. -/
theorem isFileComplete_eq (p : ProgressData) (courseId fileKey : String) :
    isFileComplete p courseId fileKey = lookupKey (lookupCourse p courseId) fileKey := by
  unfold isFileComplete lookupCourse lookupKey
  cases objGet p courseId with
  | none => simp [objGet]
  | some cp => simp

theorem lookupCourse_objSet_self (p : ProgressData) (courseId : String) (cp : CourseProgress) :
    lookupCourse (objSet p courseId cp) courseId = cp := by
  simp [lookupCourse, objGet_objSet_self]

theorem lookupKey_objSet_self (cp : CourseProgress) (k : String) (v : Bool) :
    lookupKey (objSet cp k v) k = v := by
  simp [lookupKey, objGet_objSet_self]

/-- Claim C9: toggling the same (courseId, fileKey) twice restores the
observable completion state reported by isFileComplete, and the two toggles
emit opposite-valued progress updates for that fileKey. -/
theorem claim_C9_toggle_involutive (p : ProgressData) (courseId fileKey : String) :
    isFileComplete
        (toggleFileComplete (toggleFileComplete p courseId fileKey).1 courseId fileKey).1
        courseId fileKey
      = isFileComplete p courseId fileKey
    ∧ (toggleFileComplete p courseId fileKey).2
        = ⟨fileKey, !(isFileComplete p courseId fileKey)⟩
    ∧ (toggleFileComplete (toggleFileComplete p courseId fileKey).1 courseId fileKey).2
        = ⟨fileKey, isFileComplete p courseId fileKey⟩ := by
  have step : ∀ q : ProgressData,
      isFileComplete (toggleFileComplete q courseId fileKey).1 courseId fileKey
        = !(isFileComplete q courseId fileKey) := by
    intro q
    rw [isFileComplete_eq, isFileComplete_eq, toggleFileComplete,
        lookupCourse_objSet_self, lookupKey_objSet_self]
  have msg : ∀ q : ProgressData,
      (toggleFileComplete q courseId fileKey).2
        = ⟨fileKey, !(isFileComplete q courseId fileKey)⟩ := by
    intro q
    rw [isFileComplete_eq, toggleFileComplete]
  refine ⟨?_, msg p, ?_⟩
  · rw [step, step, Bool.not_not]
  · rw [msg, step, Bool.not_not]

theorem objGet_foldl_objSet {β : Type} (keys : List String) (v : β)
    (cp : List (String × β)) (k' : String) (hk : k' ∉ keys) :
    objGet (keys.foldl (fun acc key => objSet acc key v) cp) k' = objGet cp k' := by
  induction keys generalizing cp with
  | nil => rfl
  | cons key rest ih =>
      have hk1 : k' ≠ key := by
        intro hh
        exact hk (by simp [hh])
      have hk2 : k' ∉ rest := by
        intro hh
        exact hk (by simp [hh])
      rw [List.foldl_cons, ih (objSet cp key v) hk2, objGet_objSet_ne cp key k' v hk1]

/-- Claim C10: toggleFileComplete and toggleUnitComplete modify only the
progress entries of the given courseId (every other course's completion map
is unchanged), and toggleUnitComplete changes only the listed fileKeys within
that course, leaving every other key of the same course unchanged. -/
theorem claim_C10_frame (p : ProgressData) (courseId fileKey : String)
    (fileKeys : List String) (markComplete : Bool) :
    (∀ c', c' ≠ courseId →
        objGet (toggleFileComplete p courseId fileKey).1 c' = objGet p c')
    ∧ (∀ c', c' ≠ courseId →
        objGet (toggleUnitComplete p courseId fileKeys markComplete).1 c' = objGet p c')
    ∧ (∀ k', k' ∉ fileKeys →
        lookupKey (lookupCourse (toggleUnitComplete p courseId fileKeys markComplete).1 courseId) k'
          = lookupKey (lookupCourse p courseId) k') := by
  refine ⟨?_, ?_, ?_⟩
  · intro c' hc
    rw [toggleFileComplete]
    exact objGet_objSet_ne p courseId c' _ hc
  · intro c' hc
    rw [toggleUnitComplete]
    exact objGet_objSet_ne p courseId c' _ hc
  · intro k' hk
    rw [toggleUnitComplete, lookupCourse_objSet_self, lookupKey, lookupKey,
        objGet_foldl_objSet fileKeys markComplete (lookupCourse p courseId) k' hk]

/-- Witness for claim C10 at a concrete state: course "d" and key "b" are
untouched by updates to course "c". -/
theorem claim_C10_frame_witness :
    ("d" ≠ "c" ∧ "b" ∉ (["a"] : List String))
    ∧ objGet (toggleFileComplete demoProgress "c" "a").1 "d" = objGet demoProgress "d"
    ∧ lookupKey (lookupCourse (toggleUnitComplete demoProgress "c" ["a"] false).1 "c") "b"
        = lookupKey (lookupCourse demoProgress "c") "b" :=
  ⟨by decide,
   (claim_C10_frame demoProgress "c" "a" ["a"] false).1 "d" (by decide),
   (claim_C10_frame demoProgress "c" "a" ["a"] false).2.2 "b" (by decide)⟩

/- Data model shared by compact-leaderboard.tsx and useProgressSync. -/
structure LeaderboardEntry where
  userId : String
  username : String
  completed : Int
  total : Int
  percentage : Int
  lastUpdate : String
deriving DecidableEq

/- The comparator of compact-leaderboard.tsx lines 57-62:
   (a, b) gives b.percentage - a.percentage when nonzero, else
   b.completed - a.completed. -/
def entryComparator (a b : LeaderboardEntry) : Int :=
  if b.percentage - a.percentage ≠ 0 then b.percentage - a.percentage
  else b.completed - a.completed

/- a may come before b exactly when the comparator is nonpositive. -/
def entryLe (a b : LeaderboardEntry) : Bool :=
  decide (entryComparator a b ≤ 0)

/- The display sort `[...entries].sort(comparator)`; a comparator-consistent
   sort, modelled by mergeSort with the order induced by the comparator. -/
def sortedEntries (entries : List LeaderboardEntry) : List LeaderboardEntry :=
  entries.mergeSort entryLe

theorem entryLe_eq_true_iff (a b : LeaderboardEntry) :
    entryLe a b = true
      ↔ (b.percentage < a.percentage
          ∨ (b.percentage = a.percentage ∧ b.completed ≤ a.completed)) := by
  simp only [entryLe, entryComparator, decide_eq_true_eq]
  split_ifs with h
  · omega
  · omega

theorem entryLe_trans (a b c : LeaderboardEntry) :
    entryLe a b = true → entryLe b c = true → entryLe a c = true := by
  intro hab hbc
  rw [entryLe_eq_true_iff] at hab hbc ⊢
  omega

theorem entryLe_total (a b : LeaderboardEntry) :
    (entryLe a b || entryLe b a) = true := by
  simp only [Bool.or_eq_true, entryLe_eq_true_iff]
  omega

/-- Claim C2: in the list produced by the display sort, whenever position i
precedes position j, the entry at i has percentage at least that at j, and on
equal percentages the entry at i has at least the completed count of the entry
at j; equivalently any entry with strictly greater percentage, or equal
percentage and strictly greater completed count, appears strictly earlier. -/
theorem claim_C2_ranking (entries : List LeaderboardEntry) (i j : Nat)
    (hi : i < (sortedEntries entries).length) (hj : j < (sortedEntries entries).length)
    (hij : i < j) :
    ((sortedEntries entries).get ⟨j, hj⟩).percentage
        ≤ ((sortedEntries entries).get ⟨i, hi⟩).percentage
    ∧ (((sortedEntries entries).get ⟨i, hi⟩).percentage
          = ((sortedEntries entries).get ⟨j, hj⟩).percentage →
        ((sortedEntries entries).get ⟨j, hj⟩).completed
          ≤ ((sortedEntries entries).get ⟨i, hi⟩).completed) := by
  have hpair : List.Pairwise (fun a b => entryLe a b = true) (sortedEntries entries) :=
    List.sorted_mergeSort entryLe_trans entryLe_total entries
  have hrel := List.pairwise_iff_get.mp hpair ⟨i, hi⟩ ⟨j, hj⟩ (Fin.mk_lt_mk.mpr hij)
  rw [entryLe_eq_true_iff] at hrel
  refine ⟨?_, ?_⟩
  · omega
  · intro heq
    omega

/- Two concrete entries for the C2 witness. -/
def demoEntries : List LeaderboardEntry :=
  [⟨"u1", "SwiftPanda1", 5, 10, 50, "t1"⟩, ⟨"u2", "CalmOwl2", 3, 10, 30, "t2"⟩]

theorem demoSorted_length : (sortedEntries demoEntries).length = 2 :=
  (List.mergeSort_perm demoEntries entryLe).length_eq

theorem demoSorted_zero_lt : 0 < (sortedEntries demoEntries).length := by
  rw [demoSorted_length]
  omega

theorem demoSorted_one_lt : 1 < (sortedEntries demoEntries).length := by
  rw [demoSorted_length]
  omega

/-- Witness for claim C2 on a concrete two-entry leaderboard. -/
theorem claim_C2_ranking_witness :
    (0 : Nat) < 1
    ∧ ((sortedEntries demoEntries).get ⟨1, demoSorted_one_lt⟩).percentage
        ≤ ((sortedEntries demoEntries).get ⟨0, demoSorted_zero_lt⟩).percentage :=
  ⟨by omega,
   (claim_C2_ranking demoEntries 0 1 demoSorted_zero_lt demoSorted_one_lt (by omega)).1⟩

/- Data model of useProgressSync (the sync channel). -/

/- The ProgressUpdate interface queued while offline. -/
structure ProgressUpdate where
  courseId : String
  fileKey : String
  isComplete : Bool
deriving DecidableEq

/- JSON messages the client sends over the socket. -/
inductive ClientMsg where
  | progressUpdate (courseId fileKey : String) (isComplete : Bool) (username : String)
  | setUsername (username : String)
  | requestLeaderboard (courseId : String)
  | syncStudyItems (courseId : String) (fileKeys : List String)
deriving DecidableEq

/- Messages received from the aggregator. -/
inductive ServerMsg where
  | connected
  | leaderboardUpdate (courseId : String) (entries : List LeaderboardEntry)

/- The values the connect closure captures for the handlers of the socket it
   creates (connect is memoized over userId, courseId and username, so its
   handlers read the username and courseId current when connect was invoked). -/
structure SocketHandlers where
  username : String
  courseId : String
deriving DecidableEq

/- The observable state of one useProgressSync hook instance.  sent is the
   trace of ws.send calls; pending is pendingUpdatesRef.current;
   storedUsername is the persisted localStorage copy; wsOpen models
   wsRef.current.readyState === WebSocket.OPEN; reconnectDelayMs records the
   delay of a scheduled reconnect timer. -/
structure ChannelState where
  courseId : String
  userId : Option String
  username : String
  storedUsername : Option String
  isConnected : Bool
  wsOpen : Bool
  sock : Option SocketHandlers
  pending : List ProgressUpdate
  sent : List ClientMsg
  leaderboard : List LeaderboardEntry
  reconnectDelayMs : Option Nat
deriving DecidableEq

/- ECMAScript whitespace and line terminators, as removed by String.trim. -/
def isJsWhitespace (ch : Char) : Bool :=
  ch.toNat = 9 || ch.toNat = 10 || ch.toNat = 11 || ch.toNat = 12 || ch.toNat = 13
    || ch.toNat = 32 || ch.toNat = 160 || ch.toNat = 0x1680
    || (0x2000 ≤ ch.toNat && ch.toNat ≤ 0x200A)
    || ch.toNat = 0x2028 || ch.toNat = 0x2029 || ch.toNat = 0x202F
    || ch.toNat = 0x205F || ch.toNat = 0x3000 || ch.toNat = 0xFEFF

/- Models the guard `!newUsername.trim()`: true iff trim() yields "". -/
def jsTrimEmpty (s : String) : Bool :=
  s.data.all isJsWhitespace

/- useProgressSync lines 96-109. -/
def updateUsername (s : ChannelState) (newUsername : String) : ChannelState :=
  if jsTrimEmpty newUsername then s
  else
    let s1 := { s with username := newUsername, storedUsername := some newUsername }
    if s1.wsOpen then { s1 with sent := s1.sent ++ [ClientMsg.setUsername newUsername] }
    else s1

/- useProgressSync lines 112-176: invoking connect.  A no-op without a
   userId; otherwise it creates a not-yet-open socket whose handlers capture
   the current username and courseId. -/
def connect (s : ChannelState) : ChannelState :=
  match s.userId with
  | none => s
  | some _ => { s with sock := some ⟨s.username, s.courseId⟩, wsOpen := false }

/- The flush loop of ws.onopen: one progress_update per queued update, in
   queue order, tagged with the username the handler closure holds. -/
def flushMsgs (pending : List ProgressUpdate) (username : String) : List ClientMsg :=
  pending.map (fun u => ClientMsg.progressUpdate u.courseId u.fileKey u.isComplete username)

/- useProgressSync lines 119-140 (ws.onopen): mark connected, flush the
   pending queue, clear it, then request the leaderboard for the captured
   courseId. -/
def onOpen (s : ChannelState) : ChannelState :=
  match s.sock with
  | none => s
  | some h =>
      { s with isConnected := true, wsOpen := true,
               sent := s.sent ++ flushMsgs s.pending h.username
                 ++ [ClientMsg.requestLeaderboard h.courseId],
               pending := [] }

/- useProgressSync lines 160-169 (ws.onclose): drop to disconnected and
   schedule a reconnect after a fixed 3000 ms. -/
def onClose (s : ChannelState) : ChannelState :=
  { s with isConnected := false, wsOpen := false, reconnectDelayMs := some 3000 }

/- useProgressSync lines 211-228 (sendProgressUpdate): send immediately when
   the socket is open, else append to the pending queue. -/
def sendProgressUpdate (s : ChannelState) (fileKey : String) (isComplete : Bool) :
    ChannelState :=
  let update : ProgressUpdate := ⟨s.courseId, fileKey, isComplete⟩
  if s.wsOpen then
    { s with sent := s.sent
        ++ [ClientMsg.progressUpdate update.courseId update.fileKey update.isComplete s.username] }
  else
    { s with pending := s.pending ++ [update] }

/- useProgressSync lines 142-154 (ws.onmessage). -/
def handleMessage (s : ChannelState) (msg : ServerMsg) : ChannelState :=
  match msg with
  | ServerMsg.leaderboardUpdate c entries =>
      if c = s.courseId then { s with leaderboard := entries } else s
  | ServerMsg.connected => s

/- Array.prototype.findIndex: index of the first match, -1 if none. -/
def jsFindIndex {α : Type} (p : α → Bool) : List α → Int
  | [] => -1
  | a :: l =>
      if p a then 0
      else if jsFindIndex p l = -1 then -1 else jsFindIndex p l + 1

/- useProgressSync lines 259-267: findIndex + 1, exposed only when positive. -/
def currentUserRank (s : ChannelState) : Option Int :=
  match s.userId with
  | none => none
  | some uid =>
      let rank := jsFindIndex (fun e => decide (e.userId = uid)) s.leaderboard + 1
      if 0 < rank then some rank else none

/- A sequence of sendProgressUpdate calls, oldest first. -/
def sendAll (s : ChannelState) (calls : List (String × Bool)) : ChannelState :=
  calls.foldl (fun t call => sendProgressUpdate t call.1 call.2) s

/- One disconnect/reconnect round: the scheduled timer fires, connect runs,
   the socket opens, then closes again. -/
def reconnectCycle (s : ChannelState) : ChannelState :=
  onClose (onOpen (connect { s with reconnectDelayMs := none }))

/- A concrete channel for witnesses: identity available, socket created but
   not yet open, nothing queued or sent. -/
def demoChannel : ChannelState where
  courseId := "cs101"
  userId := some "u1"
  username := "SwiftPanda1"
  storedUsername := some "SwiftPanda1"
  isConnected := false
  wsOpen := false
  sock := some ⟨"SwiftPanda1", "cs101"⟩
  pending := []
  sent := []
  leaderboard := []
  reconnectDelayMs := none

theorem sendAll_not_open (calls : List (String × Bool)) (s : ChannelState)
    (h : s.wsOpen = false) :
    sendAll s calls
      = { s with pending := s.pending
            ++ calls.map (fun call => ProgressUpdate.mk s.courseId call.1 call.2) } := by
  induction calls generalizing s with
  | nil => simp [sendAll]
  | cons c rest ih =>
      have hstep : sendProgressUpdate s c.1 c.2
          = { s with pending := s.pending ++ [ProgressUpdate.mk s.courseId c.1 c.2] } := by
        simp [sendProgressUpdate, h]
      have h2 : ({ s with pending := s.pending ++ [ProgressUpdate.mk s.courseId c.1 c.2] }
          : ChannelState).wsOpen = false := h
      calc sendAll s (c :: rest)
          = sendAll (sendProgressUpdate s c.1 c.2) rest := rfl
        _ = _ := by
            rw [hstep, ih _ h2]
            simp

/-- Claim C3: updates issued while the socket is not open are appended to the
in-memory pending queue in issue order and nothing is sent; when the socket
next opens, every queued update is sent, in the same FIFO order, followed by
the leaderboard request, and the queue is emptied, so a further open event
sends no queued update again (exactly-once delivery). -/
theorem claim_C3_offline_queue (s : ChannelState) (calls : List (String × Bool))
    (h : SocketHandlers) (hopen : s.wsOpen = false) (hsock : s.sock = some h) :
    (sendAll s calls).pending
        = s.pending ++ calls.map (fun call => ProgressUpdate.mk s.courseId call.1 call.2)
    ∧ (sendAll s calls).sent = s.sent
    ∧ (onOpen (sendAll s calls)).isConnected = true
    ∧ (onOpen (sendAll s calls)).sent
        = s.sent ++ flushMsgs (sendAll s calls).pending h.username
            ++ [ClientMsg.requestLeaderboard h.courseId]
    ∧ (onOpen (sendAll s calls)).pending = []
    ∧ (onOpen (onOpen (sendAll s calls))).sent
        = (onOpen (sendAll s calls)).sent ++ [ClientMsg.requestLeaderboard h.courseId] := by
  rw [sendAll_not_open calls s hopen]
  refine ⟨rfl, rfl, ?_, ?_, ?_, ?_⟩
  · simp [onOpen, hsock]
  · simp [onOpen, hsock]
  · simp [onOpen, hsock]
  · simp [onOpen, hsock, flushMsgs]

/-- Witness for claim C3: two updates queued offline are flushed and the queue
is empty afterwards. -/
theorem claim_C3_offline_queue_witness :
    (demoChannel.wsOpen = false ∧ demoChannel.sock = some ⟨"SwiftPanda1", "cs101"⟩)
    ∧ (onOpen (sendAll demoChannel [("f1", true), ("f2", false)])).pending = [] :=
  ⟨⟨rfl, rfl⟩,
   (claim_C3_offline_queue demoChannel [("f1", true), ("f2", false)]
      ⟨"SwiftPanda1", "cs101"⟩ rfl rfl).2.2.2.2.1⟩

theorem jsFindIndex_of_none {α : Type} (p : α → Bool) (l : List α)
    (h : ∀ a ∈ l, p a = false) : jsFindIndex p l = -1 := by
  induction l with
  | nil => rfl
  | cons a t ih =>
      have ha : p a = false := h a (by simp)
      have ht : jsFindIndex p t = -1 := ih (fun x hx => h x (by simp [hx]))
      simp [jsFindIndex, ha, ht]

theorem jsFindIndex_of_first {α : Type} (p : α → Bool) (l : List α) (i : Nat)
    (hi : i < l.length) (hp : p (l.get ⟨i, hi⟩) = true)
    (hmin : ∀ j (hj : j < l.length), j < i → p (l.get ⟨j, hj⟩) = false) :
    jsFindIndex p l = i := by
  induction l generalizing i with
  | nil => exact absurd hi (by simp)
  | cons a t ih =>
      cases i with
      | zero =>
          have ha : p a = true := hp
          simp [jsFindIndex, ha]
      | succ n =>
          have ha : p a = false := hmin 0 (by simp) (by omega)
          have hn : n < t.length := by
            have := hi
            simp at this
            omega
          have hp' : p (t.get ⟨n, hn⟩) = true := hp
          have hmin' : ∀ j (hj : j < t.length), j < n → p (t.get ⟨j, hj⟩) = false := by
            intro j hj hjn
            have hj1 : j + 1 < (a :: t).length := by simp; omega
            have := hmin (j + 1) hj1 (by omega)
            exact this
          have ht := ih n hn hp' hmin'
          have hne : ¬ jsFindIndex p t = -1 := by
            rw [ht]
            omega
          simp only [jsFindIndex, ha, Bool.false_eq_true, if_false, hne, ite_false, ht]
          push_cast
          ring

/-- Claim C4: currentUserRank is absent when no userId is set or when no
leaderboard entry carries the local userId, and otherwise equals the 1-based
position of the first entry whose userId matches the local userId in the last
received leaderboard. -/
theorem claim_C4_rank (s : ChannelState) :
    (s.userId = none → currentUserRank s = none)
    ∧ (∀ uid, s.userId = some uid →
        (∀ e ∈ s.leaderboard, e.userId ≠ uid) → currentUserRank s = none)
    ∧ (∀ uid (i : Nat) (hi : i < s.leaderboard.length), s.userId = some uid →
        (s.leaderboard.get ⟨i, hi⟩).userId = uid →
        (∀ j (hj : j < s.leaderboard.length), j < i →
          (s.leaderboard.get ⟨j, hj⟩).userId ≠ uid) →
        currentUserRank s = some ((i : Int) + 1)) := by
  refine ⟨?_, ?_, ?_⟩
  · intro h
    simp [currentUserRank, h]
  · intro uid h hno
    have hidx : jsFindIndex (fun e => decide (e.userId = uid)) s.leaderboard = -1 :=
      jsFindIndex_of_none _ _ (fun a ha => by simp [hno a ha])
    simp [currentUserRank, h, hidx]
  · intro uid i hi h hp hmin
    have hidx : jsFindIndex (fun e => decide (e.userId = uid)) s.leaderboard = i :=
      jsFindIndex_of_first _ _ i hi (by simpa using hp)
        (fun j hj hji => by simpa using hmin j hj hji)
    have hpos : (0 : Int) < (i : Int) + 1 := by omega
    simp [currentUserRank, h, hidx, hpos]

/- A channel that has received a two-entry leaderboard. -/
def demoChannelLb : ChannelState :=
  { demoChannel with leaderboard := demoEntries }

/-- Witness for claim C4: the local user u1 sits at index 0 of the received
leaderboard, so the reported rank is 1. -/
theorem claim_C4_rank_witness :
    demoChannelLb.userId = some "u1"
    ∧ currentUserRank demoChannelLb = some ((0 : Int) + 1) :=
  ⟨rfl,
   (claim_C4_rank demoChannelLb).2.2 "u1" 0 (by decide) rfl (by decide)
     (fun j hj hj0 => absurd hj0 (by omega))⟩

/- Trace for the C5 counterexample: an update is queued offline under
   username Alice, connect is invoked, the user renames to Bob while the
   socket is still connecting, then the socket opens and flushes. -/
def c5Start : ChannelState :=
  { demoChannel with username := "Alice", storedUsername := some "Alice",
                     sock := none, pending := [⟨"cs101", "f1", true⟩] }

def c5Connected : ChannelState := connect c5Start

def c5Renamed : ChannelState := updateUsername c5Connected "Bob"

def c5Flushed : ChannelState := onOpen c5Renamed

/-- Counterexample to claim C5 as stated: the username at the moment of the
flush is Bob, yet the flushed update is tagged Alice — the username captured
by the connect closure when the connection attempt began, not the one current
at flush time. -/
theorem claim_C5_counterexample :
    c5Renamed.username = "Bob"
    ∧ c5Flushed.username = "Bob"
    ∧ c5Flushed.sent
        = [ClientMsg.progressUpdate "cs101" "f1" true "Alice",
           ClientMsg.requestLeaderboard "cs101"]
    ∧ c5Flushed.sent
        ≠ [ClientMsg.progressUpdate "cs101" "f1" true "Bob",
           ClientMsg.requestLeaderboard "cs101"] := by
  decide

/-- Claim C5 (amended): every update flushed from the offline queue is tagged
with the username captured by the connect closure — the username current when
the connection attempt began — which coincides with the flush-time username
only when no rename happened in between; see the counterexample for the
divergence. -/
theorem claim_C5_flush_username (t : ChannelState) (uid : String)
    (huid : t.userId = some uid) :
    (connect t).sock = some ⟨t.username, t.courseId⟩
    ∧ (∀ s', s'.sock = (connect t).sock →
        (onOpen s').sent
          = s'.sent ++ flushMsgs s'.pending t.username
              ++ [ClientMsg.requestLeaderboard t.courseId]) := by
  have hc : (connect t).sock = some ⟨t.username, t.courseId⟩ := by
    simp [connect, huid]
  refine ⟨hc, ?_⟩
  intro s' hs
  rw [hc] at hs
  simp [onOpen, hs]

/-- Witness for claim C5 (amended) on the concrete trace: flushing after the
rename tags the queued update with the connect-time username Alice. -/
theorem claim_C5_flush_username_witness :
    c5Start.userId = some "u1"
    ∧ c5Flushed.sent
        = c5Renamed.sent ++ flushMsgs c5Renamed.pending c5Start.username
            ++ [ClientMsg.requestLeaderboard c5Start.courseId] :=
  ⟨rfl,
   (claim_C5_flush_username c5Start "u1" rfl).2 c5Renamed (by decide)⟩

/-- Claim C6: a leaderboard_update message replaces the displayed leaderboard
exactly when its courseId equals the course the hook displays; an update for
any other courseId leaves the whole hook state unchanged, as does a plain
connected acknowledgement. -/
theorem claim_C6_course_filter (s : ChannelState) (c : String)
    (entries : List LeaderboardEntry) :
    ((handleMessage s (ServerMsg.leaderboardUpdate c entries)).leaderboard
        = if c = s.courseId then entries else s.leaderboard)
    ∧ (c = s.courseId →
        (handleMessage s (ServerMsg.leaderboardUpdate c entries)).leaderboard = entries)
    ∧ (c ≠ s.courseId → handleMessage s (ServerMsg.leaderboardUpdate c entries) = s)
    ∧ handleMessage s ServerMsg.connected = s := by
  refine ⟨?_, ?_, ?_, rfl⟩
  · by_cases hc : c = s.courseId
    · simp [handleMessage, hc]
    · simp [handleMessage, hc]
  · intro hc
    simp [handleMessage, hc]
  · intro hc
    simp [handleMessage, hc]

/-- Witness for claim C6: an update for a different course leaves the state
unchanged. -/
theorem claim_C6_course_filter_witness :
    "other" ≠ demoChannel.courseId
    ∧ handleMessage demoChannel (ServerMsg.leaderboardUpdate "other" demoEntries)
        = demoChannel :=
  ⟨by decide,
   (claim_C6_course_filter demoChannel "other" demoEntries).2.2.1 (by decide)⟩

/-- Claim C7: updateUsername on a whitespace-only input (including the empty
string) is a complete no-op — state, persisted name and send trace untouched;
on any other input the raw name is stored and persisted and, exactly when the
socket is open, one set_username message is sent. -/
theorem claim_C7_reject_blank (s : ChannelState) (input : String) :
    ((∀ ch ∈ input.data, isJsWhitespace ch = true) → updateUsername s input = s)
    ∧ ((¬ ∀ ch ∈ input.data, isJsWhitespace ch = true) →
        (updateUsername s input).username = input
        ∧ (updateUsername s input).storedUsername = some input
        ∧ (s.wsOpen = true →
            (updateUsername s input).sent = s.sent ++ [ClientMsg.setUsername input])
        ∧ (s.wsOpen = false → (updateUsername s input).sent = s.sent)
        ∧ (updateUsername s input).pending = s.pending
        ∧ (updateUsername s input).leaderboard = s.leaderboard) := by
  have hiff : jsTrimEmpty input = true ↔ ∀ ch ∈ input.data, isJsWhitespace ch = true := by
    simp [jsTrimEmpty, List.all_eq_true]
  constructor
  · intro h
    have ht : jsTrimEmpty input = true := hiff.mpr h
    simp [updateUsername, ht]
  · intro h
    have hf : jsTrimEmpty input = false := by
      cases hb : jsTrimEmpty input
      · rfl
      · exact absurd (hiff.mp hb) h
    by_cases hw : s.wsOpen = true
    · simp [updateUsername, hf, hw]
    · have hw' : s.wsOpen = false := by
        cases hb : s.wsOpen
        · rfl
        · exact absurd hb hw
      simp [updateUsername, hf, hw']

/-- Witness for claim C7: a space-only input leaves the channel untouched. -/
theorem claim_C7_reject_blank_witness :
    (∀ ch ∈ (" " : String).data, isJsWhitespace ch = true)
    ∧ updateUsername demoChannel " " = demoChannel :=
  ⟨by decide, (claim_C7_reject_blank demoChannel " ").1 (by decide)⟩

/-- Claim C8: every close event leaves the channel disconnected with a
reconnect scheduled after exactly 3000 ms, and after any number of further
close/reconnect rounds the channel still behaves identically — the delay is
still the fixed 3000 ms and a reconnect is still scheduled, with no retry
counter anywhere in the state, so the channel is never permanently given
up. -/
theorem claim_C8_reconnect (s : ChannelState) (n : Nat) :
    (onClose s).isConnected = false
    ∧ (onClose s).reconnectDelayMs = some 3000
    ∧ (reconnectCycle^[n + 1] s).isConnected = false
    ∧ (reconnectCycle^[n + 1] s).reconnectDelayMs = some 3000 := by
  refine ⟨rfl, rfl, ?_, ?_⟩
  · rw [Function.iterate_succ_apply']
    rfl
  · rw [Function.iterate_succ_apply']
    rfl
